import Mathlib

/-!
Shallow embedding of the displacement-map synthesis engine of the
LiquidGlass component (the `updateShader` callback and its helpers
`smoothStep`, `length`, `roundedRectSDF`).

Numeric model: every IEEE-754 double is a rational number, so the engine's
arithmetic is modelled over `ℚ`.  The transcendental library calls
(`Math.sqrt`, `Math.sin`, `Math.cos`, `Math.atan2`) and the constant
`Math.PI` return unspecified doubles; they are modelled as an abstract
bundle `JsMath` of rational-valued functions, and every theorem below is
proved for an arbitrary bundle, hence in particular for the real ones.
`Uint8ClampedArray` stores (clamp to [0,255] and round half to even) are
modelled by `clampRound`.
-/

namespace Quidlass

/-- Abstract bundle of the JS `Math` primitives used by the engine. -/
structure JsMath where
  pi : ℚ
  sqrt : ℚ → ℚ
  sin : ℚ → ℚ
  cos : ℚ → ℚ
  atan2 : ℚ → ℚ → ℚ

/-- Corner regions selectable through the `swirlEdges` prop. -/
inductive Corner
  | topLeft
  | topRight
  | bottomRight
  | bottomLeft
deriving DecidableEq

/-- Value of the `swirlEdges` prop: the string `'all'`, a single corner
string, or an array of corner strings. -/
inductive SwirlEdges
  | all
  | single (c : Corner)
  | multi (cs : List Corner)
deriving DecidableEq

/-- Numeric and region parameters of one synthesis pass. -/
structure Params where
  borderRadius : ℚ
  edgeThicknessPx : ℚ
  swirlIntensity : ℚ
  swirlScale : ℚ
  swirlRadius : ℚ
  swirlOffset : ℚ
  swirlEdges : SwirlEdges
deriving DecidableEq

/-- Cubic smoothstep easing, from the component's `smoothStep`. -/
def smoothStep (a b t : ℚ) : ℚ :=
  let t1 := max 0 (min 1 ((t - a) / (b - a)))
  t1 * t1 * (3 - 2 * t1)

/-- Euclidean vector magnitude, from the component's `length`. -/
def length (M : JsMath) (x y : ℚ) : ℚ :=
  M.sqrt (x * x + y * y)

/-- Signed distance field of a rounded rectangle, from `roundedRectSDF`. -/
def roundedRectSDF (M : JsMath) (x y w h radius : ℚ) : ℚ :=
  let qx := |x| - w + radius
  let qy := |y| - h + radius
  min (max qx qy) 0 + length M (max qx 0) (max qy 0) - radius

/-- Hoisted `minDimension = Math.min(w, h)` of `updateShader`. -/
def minDimension (w h : ℕ) : ℚ :=
  min (w : ℚ) (h : ℚ)

/-- Hoisted `maxPossibleDistance = minDimension / 2` of `updateShader`. -/
def maxPossibleDistance (w h : ℕ) : ℚ :=
  minDimension w h / 2

/-- Size-adaptive threshold selection of `updateShader` (the three-way
branch on `minDimension`). -/
def adaptiveThreshold (w h : ℕ) (edgeThicknessPx dpi : ℚ) : ℚ :=
  if minDimension w h < 60 then
    min (minDimension w h * 0.8) (maxPossibleDistance w h)
  else if minDimension w h < 100 then
    min (minDimension w h * 0.6) (maxPossibleDistance w h)
  else
    min (edgeThicknessPx * dpi) (min (minDimension w h * 0.4) (maxPossibleDistance w h))

/-- Final hoisted `threshold` of `updateShader`: the adaptive threshold
clamped to at most `maxPossibleDistance` and at least `1`. -/
def threshold (w h : ℕ) (edgeThicknessPx dpi : ℚ) : ℚ :=
  max (min (adaptiveThreshold w h edgeThicknessPx dpi) (maxPossibleDistance w h)) 1

/-- Per-edge influence: `smoothStep(minThreshold, 0, d)` when the adjusted
distance `d` is nonnegative, else `0`. -/
def edgeInfluence (minThreshold adjDist : ℚ) : ℚ :=
  if 0 ≤ adjDist then smoothStep minThreshold 0 adjDist else 0

/-- `maxEdgeInfluence`: maximum of the four per-edge influences. -/
def maxEdgeInfluence (minThreshold dl dr dt db : ℚ) : ℚ :=
  max (max (max (edgeInfluence minThreshold dl) (edgeInfluence minThreshold dr))
    (edgeInfluence minThreshold dt)) (edgeInfluence minThreshold db)

/-- Membership test of one corner against the four half-plane flags. -/
def cornerMatch (c : Corner) (isLeftHalf isRightHalf isTopHalf isBottomHalf : Bool) : Bool :=
  match c with
  | .topLeft => isLeftHalf && isTopHalf
  | .topRight => isRightHalf && isTopHalf
  | .bottomRight => isRightHalf && isBottomHalf
  | .bottomLeft => isLeftHalf && isBottomHalf

/-- Region membership (`isInSwirlRegion` in `updateShader`): `'all'` is
always in; an array is in when some selected corner matches; a single
corner is in when it matches. -/
def isInSwirlRegion (edges : SwirlEdges) (l r t b : Bool) : Bool :=
  match edges with
  | .all => true
  | .multi cs => cs.any fun c => cornerMatch c l r t b
  | .single c => cornerMatch c l r t b

/-- Influence evaluator of `updateShader` at a pixel-centre position
`(pxX, pxY)`: straight-edge distances, inward offset, per-edge smoothstep
falloff with `minThreshold = max(threshold, 2)`, maximum over the four
edges, then region gating. -/
def influenceAt (edges : SwirlEdges) (swirlOffset thr : ℚ) (w h : ℕ) (pxX pxY : ℚ) : ℚ :=
  let halfW : ℚ := (w : ℚ) / 2
  let halfH : ℚ := (h : ℚ) / 2
  let distFromLeft := pxX
  let distFromRight := (w : ℚ) - pxX
  let distFromTop := pxY
  let distFromBottom := (h : ℚ) - pxY
  let maxDistanceToCenter := min halfW halfH
  let offsetDistance := swirlOffset * maxDistanceToCenter
  let minThreshold := max thr 2
  let mei := maxEdgeInfluence minThreshold (distFromLeft - offsetDistance)
    (distFromRight - offsetDistance) (distFromTop - offsetDistance)
    (distFromBottom - offsetDistance)
  if isInSwirlRegion edges (decide (pxX < halfW)) (decide (halfW ≤ pxX))
      (decide (pxY < halfH)) (decide (halfH ≤ pxY)) then mei else 0

/-- Body of the per-pixel double loop of `updateShader`: influence, polar
vortex transform, blended position, and the raw `(dx, dy)` displacement.
The hoisted loop constants are passed in: `thr` the adaptive threshold,
`ssc`/`src` the clamped swirl scale/radius, `sif` the intensity factor
`swirlIntensity / 10`, `dispF` the displacement factor, and the three SDF
arguments.  The rounded-rectangle SDF value is computed and discarded,
exactly as in the source. -/
def pixelD (M : JsMath) (edges : SwirlEdges)
    (swirlOffset thr ssc src sif dispF sdfW sdfH sdfRadius : ℚ)
    (w h x y : ℕ) : ℚ × ℚ :=
  let pxX : ℚ := (x : ℚ) + 0.5
  let pxY : ℚ := (y : ℚ) + 0.5
  let uvX : ℚ := (x : ℚ) / (w : ℚ)
  let uvY : ℚ := (y : ℚ) / (h : ℚ)
  let ix := uvX - 0.5
  let iy := uvY - 0.5
  let halfW : ℚ := (w : ℚ) / 2
  let halfH : ℚ := (h : ℚ) / 2
  let centeredX := pxX - halfW
  let centeredY := pxY - halfH
  let _sdfValue := roundedRectSDF M centeredX centeredY sdfW sdfH sdfRadius
  let borderInfluence := influenceAt edges swirlOffset thr w h pxX pxY
  let maxRadius := M.sqrt (0.5 * 0.5 + 0.5 * 0.5)
  let angle := M.atan2 iy ix
  let radius := M.sqrt (ix * ix + iy * iy)
  let normalizedRadius := min (radius / maxRadius) 1
  let scaledRadius := normalizedRadius / ssc
  let effectiveRadius := normalizedRadius * src
  let swirlStrength := borderInfluence * scaledRadius * effectiveRadius * sif
  let finalAngle := angle + swirlStrength * (M.pi * 2)
  let radiusVariation := 1 + swirlStrength * 0.1 * M.sin (angle * 3)
  let newRadius := radius * radiusVariation
  let swirlX := M.cos finalAngle * newRadius
  let swirlY := M.sin finalAngle * newRadius
  let posX := (swirlX * dispF * borderInfluence + ix * (1 - dispF * borderInfluence * 0.3)) + 0.5
  let posY := (swirlY * dispF * borderInfluence + iy * (1 - dispF * borderInfluence * 0.3)) + 0.5
  ((posX - uvX) * (w : ℚ), (posY - uvY) * (h : ℚ))

/-- Raw displacement field as a function of the row-major pixel index. -/
def rawFun (M : JsMath) (edges : SwirlEdges)
    (swirlOffset thr ssc src sif dispF sdfW sdfH sdfRadius : ℚ)
    (w h : ℕ) : ℕ → ℚ × ℚ :=
  fun i =>
    pixelD M edges swirlOffset thr ssc src sif dispF sdfW sdfH sdfRadius w h (i % w) (i / w)

/-- Accumulated `maxScale = Math.max(maxScale, absDx, absDy)` over the
row-major pixel loop, starting from `0`. -/
def rawMaxF (f : ℕ → ℚ × ℚ) (n : ℕ) : ℚ :=
  (List.range n).foldl (fun acc i => max (max acc |(f i).1|) |(f i).2|) 0

/-- Semantics of a `Uint8ClampedArray` store: clamp to `[0, 255]` and
round to the nearest integer, ties to even. -/
def clampRound (x : ℚ) : ℕ :=
  let c := max 0 (min 255 x)
  let fl := ⌊c⌋.toNat
  let frac := c - ⌊c⌋
  if frac < 1 / 2 then fl
  else if 1 / 2 < frac then fl + 1
  else if fl % 2 = 0 then fl else fl + 1

/-- Encoder body for one pixel: normalise `(dx, dy)` by `maxScaleInv`,
map into `[0, 1]`, and emit the four RGBA bytes `(R, G, 0, 255)`. -/
def pixelBytes (f : ℕ → ℚ × ℚ) (msInv : ℚ) (i : ℕ) : List ℕ :=
  let normalizedDx := (f i).1 * msInv
  let normalizedDy := (f i).2 * msInv
  let r := max 0 (min 1 (normalizedDx * 0.5 + 0.5))
  let g := max 0 (min 1 (normalizedDy * 0.5 + 0.5))
  [clampRound (r * 255), clampRound (g * 255), 0, 255]

/-- Whole encoded output buffer over `n = w * h` pixels. -/
def encodeData (f : ℕ → ℚ × ℚ) (msInv : ℚ) (n : ℕ) : List ℕ :=
  (List.range n).flatMap (pixelBytes f msInv)

/-- Raw displacement field of `updateShader` with all hoisted constants
instantiated from the parameters, as in the source: the adaptive
threshold, `swirlScaleClamped`/`swirlRadiusClamped` via `max(_, 0.1)`,
`swirlIntensityFactor = swirlIntensity / 10`, the size-adaptive
displacement factor, and the SDF arguments derived from
`borderRadius * canvasDPI`. -/
def engineRaw (M : JsMath) (dpi : ℚ) (w h : ℕ) (p : Params) : ℕ → ℚ × ℚ :=
  rawFun M p.swirlEdges p.swirlOffset (threshold w h p.edgeThicknessPx dpi)
    (max p.swirlScale 0.1) (max p.swirlRadius 0.1) (p.swirlIntensity / 10)
    (max (minDimension w h / 100 * 0.05) 0.01 * (p.swirlIntensity / 10))
    ((w : ℚ) / 2 - p.borderRadius * dpi) ((h : ℚ) / 2 - p.borderRadius * dpi)
    (p.borderRadius * dpi) w h

/-- Floored global scale `maxScale = Math.max(maxScale * 0.5, 1.0)`. -/
def maxScaleOf (M : JsMath) (dpi : ℚ) (w h : ℕ) (p : Params) : ℚ :=
  max (rawMaxF (engineRaw M dpi w h p) (w * h) * 0.5) 1

/-- Durable outputs of one synthesis pass. -/
structure SynthResult where
  data : List ℕ
  filterScale : ℚ
deriving DecidableEq

/-- Synthesis over given device-pixel dimensions: raw field, global max,
floored scale, normalisation pass with
`maxScaleInv = maxScale > 0 ? 1 / maxScale : 0`, and
`filterScale = Math.max(maxScale / canvasDPI, 1.0)`. -/
def synthesize (M : JsMath) (dpi : ℚ) (w h : ℕ) (p : Params) : SynthResult :=
  let ms := maxScaleOf M dpi w h p
  let msInv := if 0 < ms then 1 / ms else 0
  ⟨encodeData (engineRaw M dpi w h p) msInv (w * h), max (ms / dpi) 1⟩

/-- Full `updateShader` numeric path: device-pixel dimensions
`w = Math.max(1, Math.floor(width * canvasDPI))` (likewise `h`), the
`w <= 0 || h <= 0` early return, then synthesis. -/
def updateShader (M : JsMath) (width height canvasDPI : ℚ) (p : Params) : Option SynthResult :=
  let w : ℤ := max 1 ⌊width * canvasDPI⌋
  let h : ℤ := max 1 ⌊height * canvasDPI⌋
  if w ≤ 0 ∨ h ≤ 0 then none
  else some (synthesize M canvasDPI w.toNat h.toNat p)

/-- Concrete instantiation of the math bundle, used only to exhibit
concrete runs of the engine. -/
def mathStub : JsMath :=
  ⟨0, fun _ => 0, fun _ => 0, fun _ => 0, fun _ _ => 0⟩

/-- Default parameter values of the component props. -/
def pDefault : Params :=
  ⟨20, 12, 8, 1, 1, 0, SwirlEdges.all⟩

section Lemmas

theorem smoothStep_nonneg (a b t : ℚ) : 0 ≤ smoothStep a b t := by
  unfold smoothStep
  have h0 : (0 : ℚ) ≤ max 0 (min 1 ((t - a) / (b - a))) := le_max_left _ _
  have h1 : max 0 (min 1 ((t - a) / (b - a))) ≤ 1 :=
    max_le (by norm_num) (min_le_left _ _)
  nlinarith

theorem smoothStep_le_one (a b t : ℚ) : smoothStep a b t ≤ 1 := by
  unfold smoothStep
  have h0 : (0 : ℚ) ≤ max 0 (min 1 ((t - a) / (b - a))) := le_max_left _ _
  have h1 : max 0 (min 1 ((t - a) / (b - a))) ≤ 1 :=
    max_le (by norm_num) (min_le_left _ _)
  nlinarith [mul_nonneg (sq_nonneg (1 - max 0 (min 1 ((t - a) / (b - a)))))
    (by linarith : (0 : ℚ) ≤ 1 + 2 * max 0 (min 1 ((t - a) / (b - a))))]

theorem smoothStep_at_zero (mt : ℚ) (h : mt ≠ 0) : smoothStep mt 0 0 = 1 := by
  unfold smoothStep
  have hd : (0 - mt : ℚ) ≠ 0 := by
    intro hc; apply h; linarith [hc]
  rw [div_self hd]
  norm_num

theorem smoothStep_far (mt t : ℚ) (h0 : 0 < mt) (ht : mt ≤ t) : smoothStep mt 0 t = 0 := by
  unfold smoothStep
  have hq : (t - mt) / (0 - mt) ≤ 0 := by
    apply div_nonpos_of_nonneg_of_nonpos <;> linarith
  have hmin : min 1 ((t - mt) / (0 - mt)) ≤ 0 := le_trans (min_le_right _ _) hq
  rw [max_eq_left hmin]
  ring

theorem edgeInfluence_nonneg (mt d : ℚ) : 0 ≤ edgeInfluence mt d := by
  unfold edgeInfluence
  split
  · exact smoothStep_nonneg _ _ _
  · exact le_refl 0

theorem edgeInfluence_le_one (mt d : ℚ) : edgeInfluence mt d ≤ 1 := by
  unfold edgeInfluence
  split
  · exact smoothStep_le_one _ _ _
  · norm_num

theorem edgeInfluence_at_zero (mt : ℚ) (h : mt ≠ 0) : edgeInfluence mt 0 = 1 := by
  unfold edgeInfluence
  rw [if_pos (le_refl 0)]
  exact smoothStep_at_zero mt h

theorem edgeInfluence_far (mt d : ℚ) (h0 : 0 < mt) (hd : mt ≤ d) : edgeInfluence mt d = 0 := by
  unfold edgeInfluence
  rw [if_pos (by linarith)]
  exact smoothStep_far mt d h0 hd

theorem maxEdgeInfluence_le_one (mt a b c d : ℚ) : maxEdgeInfluence mt a b c d ≤ 1 := by
  unfold maxEdgeInfluence
  exact max_le (max_le (max_le (edgeInfluence_le_one mt a) (edgeInfluence_le_one mt b))
    (edgeInfluence_le_one mt c)) (edgeInfluence_le_one mt d)

theorem maxEdgeInfluence_eq_one (mt a b c d : ℚ)
    (h : edgeInfluence mt a = 1 ∨ edgeInfluence mt b = 1 ∨
      edgeInfluence mt c = 1 ∨ edgeInfluence mt d = 1) :
    maxEdgeInfluence mt a b c d = 1 := by
  apply le_antisymm (maxEdgeInfluence_le_one mt a b c d)
  unfold maxEdgeInfluence
  rcases h with h | h | h | h
  · exact h ▸ le_max_of_le_left (le_max_of_le_left (le_max_left _ _))
  · exact h ▸ le_max_of_le_left (le_max_of_le_left (le_max_right _ _))
  · exact h ▸ le_max_of_le_left (le_max_right _ _)
  · exact h ▸ le_max_right _ _

theorem pixelBytes_length (f : ℕ → ℚ × ℚ) (msInv : ℚ) (i : ℕ) :
    (pixelBytes f msInv i).length = 4 := rfl

theorem encodeData_length (f : ℕ → ℚ × ℚ) (msInv : ℚ) (n : ℕ) :
    (encodeData f msInv n).length = n * 4 := by
  induction n with
  | zero => rfl
  | succ k ih =>
    unfold encodeData at ih ⊢
    rw [List.range_succ, List.flatMap_append, List.length_append, ih]
    simp [pixelBytes_length]
    ring

theorem encodeData_getElem (f : ℕ → ℚ × ℚ) (msInv : ℚ) (n i j : ℕ)
    (hi : i < n) (hj : j < 4) :
    (encodeData f msInv n)[4 * i + j]? = (pixelBytes f msInv i)[j]? := by
  induction n with
  | zero => omega
  | succ k ih =>
    unfold encodeData at ih ⊢
    rw [List.range_succ, List.flatMap_append]
    rcases Nat.lt_or_ge i k with hik | hik
    · rw [List.getElem?_append_left, ih hik]
      have : ((List.range k).flatMap (pixelBytes f msInv)).length = k * 4 :=
        encodeData_length f msInv k
      omega
    · have hik2 : i = k := by omega
      subst hik2
      rw [List.getElem?_append_right]
      · have hlen : ((List.range i).flatMap (pixelBytes f msInv)).length = i * 4 :=
          encodeData_length f msInv i
        rw [hlen]
        have hidx : 4 * i + j - i * 4 = j := by omega
        rw [hidx]
        simp
      · have : ((List.range i).flatMap (pixelBytes f msInv)).length = i * 4 :=
          encodeData_length f msInv i
        omega

theorem influence_multi_nil (so thr : ℚ) (w h : ℕ) (pxX pxY : ℚ) :
    influenceAt (SwirlEdges.multi []) so thr w h pxX pxY = 0 := by
  simp [influenceAt, isInSwirlRegion]

theorem pixelD_multi_nil (M : JsMath) (so thr ssc src sif dispF s1 s2 s3 : ℚ)
    (w h x y : ℕ) :
    pixelD M (SwirlEdges.multi []) so thr ssc src sif dispF s1 s2 s3 w h x y = (0, 0) := by
  simp only [pixelD, influence_multi_nil]
  rw [Prod.mk.injEq]
  constructor <;> ring

theorem rawMaxF_zero (f : ℕ → ℚ × ℚ) (n : ℕ) (hf : ∀ i, f i = (0, 0)) :
    rawMaxF f n = 0 := by
  unfold rawMaxF
  suffices h : ∀ acc : ℚ, 0 ≤ acc →
      (List.range n).foldl (fun acc i => max (max acc |(f i).1|) |(f i).2|) acc = acc by
    exact h 0 (le_refl 0)
  induction n with
  | zero => intro acc _; rfl
  | succ k ih =>
    intro acc hacc
    rw [List.range_succ, List.foldl_append, ih acc hacc]
    simp [hf k, max_eq_left hacc]

theorem clampRound_midpoint : clampRound (127.5 : ℚ) = 128 := by
  have hf : ⌊(127.5 : ℚ)⌋ = 127 := by
    rw [Int.floor_eq_iff] <;> norm_num
  simp only [clampRound]
  rw [show max 0 (min 255 (127.5 : ℚ)) = 127.5 by norm_num [min_def, max_def], hf]
  norm_num
  decide

theorem clampRound_of_midpoint (q : ℚ) (hq : q = 127.5) : clampRound q = 128 := by
  rw [hq]
  exact clampRound_midpoint

theorem pixelBytes_zero (f : ℕ → ℚ × ℚ) (msInv : ℚ) (i : ℕ) (hf : f i = (0, 0)) :
    pixelBytes f msInv i = [128, 128, 0, 255] := by
  simp only [pixelBytes, hf]
  rw [List.cons.injEq, List.cons.injEq]
  refine ⟨clampRound_of_midpoint _ ?_, clampRound_of_midpoint _ ?_, rfl⟩ <;>
    norm_num [min_def, max_def]

end Lemmas

section Claims

/-- C1: in the influence evaluator with `swirlOffset = 0` and
`region = all`, a position at distance exactly `0` from one of the four
straight edges has influence `1.0`, and a position whose distance to each
of the four straight edges is at least `minThreshold = max(threshold, 2)`
has influence `0.0`. -/
theorem influence_threshold_boundary (thr : ℚ) (w h : ℕ) (pxX pxY : ℚ) :
    ((pxX = 0 ∨ pxX = (w : ℚ) ∨ pxY = 0 ∨ pxY = (h : ℚ)) →
      influenceAt SwirlEdges.all 0 thr w h pxX pxY = 1) ∧
    ((max thr 2 ≤ pxX ∧ max thr 2 ≤ (w : ℚ) - pxX ∧
      max thr 2 ≤ pxY ∧ max thr 2 ≤ (h : ℚ) - pxY) →
      influenceAt SwirlEdges.all 0 thr w h pxX pxY = 0) := by
  have hmt2 : (2 : ℚ) ≤ max thr 2 := le_max_right _ _
  have hmt0 : (0 : ℚ) < max thr 2 := by linarith
  constructor
  · intro hd
    simp only [influenceAt, isInSwirlRegion, if_true, zero_mul, sub_zero]
    apply maxEdgeInfluence_eq_one
    rcases hd with hd | hd | hd | hd
    · exact Or.inl (hd ▸ edgeInfluence_at_zero _ (ne_of_gt hmt0))
    · refine Or.inr (Or.inl ?_)
      rw [hd, sub_self]
      exact edgeInfluence_at_zero _ (ne_of_gt hmt0)
    · exact Or.inr (Or.inr (Or.inl (hd ▸ edgeInfluence_at_zero _ (ne_of_gt hmt0))))
    · refine Or.inr (Or.inr (Or.inr ?_))
      rw [hd, sub_self]
      exact edgeInfluence_at_zero _ (ne_of_gt hmt0)
  · rintro ⟨h1, h2, h3, h4⟩
    simp only [influenceAt, isInSwirlRegion, if_true, zero_mul, sub_zero]
    unfold maxEdgeInfluence
    rw [edgeInfluence_far _ _ hmt0 h1, edgeInfluence_far _ _ hmt0 h2,
      edgeInfluence_far _ _ hmt0 h3, edgeInfluence_far _ _ hmt0 h4]
    norm_num

/-- Witness for C1 at `w = h = 100`, `threshold = 10`: the boundary
position `(0, 50)` has influence `1` and the interior position `(50, 50)`
has influence `0`. -/
theorem influence_threshold_boundary_witness :
    (((0 : ℚ) = 0 ∨ (0 : ℚ) = ((100 : ℕ) : ℚ) ∨ (50 : ℚ) = 0 ∨ (50 : ℚ) = ((100 : ℕ) : ℚ)) ∧
      influenceAt SwirlEdges.all 0 10 100 100 0 50 = 1) ∧
    ((max (10 : ℚ) 2 ≤ 50 ∧ max (10 : ℚ) 2 ≤ ((100 : ℕ) : ℚ) - 50 ∧
      max (10 : ℚ) 2 ≤ 50 ∧ max (10 : ℚ) 2 ≤ ((100 : ℕ) : ℚ) - 50) ∧
      influenceAt SwirlEdges.all 0 10 100 100 50 50 = 0) :=
  ⟨⟨Or.inl rfl, (influence_threshold_boundary 10 100 100 0 50).1 (Or.inl rfl)⟩,
    ⟨by norm_num [max_def], (influence_threshold_boundary 10 100 100 50 50).2
      (by norm_num [max_def])⟩⟩

/-- C4: for device-pixel dimensions `50 x 50` with `edgeThicknessPx = 12`
(pixel density `1`), the effective threshold is
`min(50 * 0.8, 25) = 25`, not `12`, and with `offset = 0` a position at
distance `20` from the left edge still has influence greater than `0`. -/
theorem size_adaptive_threshold :
    threshold 50 50 12 1 = 25 ∧ max (threshold 50 50 12 1) 2 = 25 ∧
    threshold 50 50 12 1 ≠ 12 ∧
    0 < influenceAt SwirlEdges.all 0 (threshold 50 50 12 1) 50 50 20 25 := by
  have ht : threshold 50 50 12 1 = 25 := by
    norm_num [threshold, adaptiveThreshold, minDimension, maxPossibleDistance, min_def, max_def]
  refine ⟨ht, by rw [ht]; norm_num [max_def], by rw [ht]; norm_num, ?_⟩
  rw [ht]
  norm_num [influenceAt, isInSwirlRegion, maxEdgeInfluence, edgeInfluence, smoothStep,
    min_def, max_def]

/-- C5: with the region selector equal to the single value `'top-left'`
or to the singleton array `['top-left']`, every pixel whose centre lies
in the bottom-right quadrant (`pxX >= w / 2` and `pxY >= h / 2`) has
influence `0`, for every offset and threshold. -/
theorem region_topleft_masking (so thr : ℚ) (w h x y : ℕ)
    (hx : (w : ℚ) / 2 ≤ (x : ℚ) + 0.5) (hy : (h : ℚ) / 2 ≤ (y : ℚ) + 0.5) :
    influenceAt (SwirlEdges.single Corner.topLeft) so thr w h ((x : ℚ) + 0.5) ((y : ℚ) + 0.5) = 0 ∧
    influenceAt (SwirlEdges.multi [Corner.topLeft]) so thr w h ((x : ℚ) + 0.5) ((y : ℚ) + 0.5) = 0 := by
  have hnx : ¬((x : ℚ) + 0.5 < (w : ℚ) / 2) := not_lt.mpr hx
  constructor <;>
    simp [influenceAt, isInSwirlRegion, cornerMatch, hnx]

/-- Witness for C5 at `w = h = 10`, pixel `(7, 7)` (centre `(7.5, 7.5)`,
in the bottom-right quadrant): influence is `0` under both forms of the
selector. -/
theorem region_topleft_masking_witness :
    (((10 : ℕ) : ℚ) / 2 ≤ ((7 : ℕ) : ℚ) + 0.5 ∧ ((10 : ℕ) : ℚ) / 2 ≤ ((7 : ℕ) : ℚ) + 0.5) ∧
    influenceAt (SwirlEdges.single Corner.topLeft) 0.2 12 10 10 (((7 : ℕ) : ℚ) + 0.5) (((7 : ℕ) : ℚ) + 0.5) = 0 ∧
    influenceAt (SwirlEdges.multi [Corner.topLeft]) 0.2 12 10 10 (((7 : ℕ) : ℚ) + 0.5) (((7 : ℕ) : ℚ) + 0.5) = 0 :=
  ⟨⟨by norm_num, by norm_num⟩,
    (region_topleft_masking 0.2 12 10 10 7 7 (by norm_num) (by norm_num)).1,
    (region_topleft_masking 0.2 12 10 10 7 7 (by norm_num) (by norm_num)).2⟩

/-- C2: for every positive device-pixel width and height and all
parameter values, the encoded output buffer has length exactly
`w * h * 4`, and every pixel's blue byte is `0` and alpha byte `255`. -/
theorem buffer_shape_invariant (M : JsMath) (dpi : ℚ) (w h : ℕ) (p : Params)
    (hw : 0 < w) (hh : 0 < h) :
    (synthesize M dpi w h p).data.length = w * h * 4 ∧
    ∀ i, i < w * h →
      (synthesize M dpi w h p).data[4 * i + 2]? = some 0 ∧
      (synthesize M dpi w h p).data[4 * i + 3]? = some 255 := by
  constructor
  · exact encodeData_length _ _ _
  · intro i hi
    constructor
    · rw [show (synthesize M dpi w h p).data =
        encodeData (engineRaw M dpi w h p)
          (if 0 < maxScaleOf M dpi w h p then 1 / maxScaleOf M dpi w h p else 0) (w * h) from rfl,
        encodeData_getElem _ _ _ _ 2 hi (by norm_num)]
      rfl
    · rw [show (synthesize M dpi w h p).data =
        encodeData (engineRaw M dpi w h p)
          (if 0 < maxScaleOf M dpi w h p then 1 / maxScaleOf M dpi w h p else 0) (w * h) from rfl,
        encodeData_getElem _ _ _ _ 3 hi (by norm_num)]
      rfl

/-- Witness for C2 at `w = h = 1` with the default parameters: the buffer
has length `4`, byte `2` is `0` and byte `3` is `255`. -/
theorem buffer_shape_invariant_witness :
    0 < 1 ∧ (synthesize mathStub 1 1 1 pDefault).data.length = 1 * 1 * 4 ∧
    (synthesize mathStub 1 1 1 pDefault).data[4 * 0 + 2]? = some 0 ∧
    (synthesize mathStub 1 1 1 pDefault).data[4 * 0 + 3]? = some 255 :=
  ⟨Nat.one_pos,
    (buffer_shape_invariant mathStub 1 1 1 pDefault Nat.one_pos Nat.one_pos).1,
    ((buffer_shape_invariant mathStub 1 1 1 pDefault Nat.one_pos Nat.one_pos).2 0
      (by norm_num)).1,
    ((buffer_shape_invariant mathStub 1 1 1 pDefault Nat.one_pos Nat.one_pos).2 0
      (by norm_num)).2⟩

/-- C3: for every input with pixel density at least `1`, the filter
scale equals `max(maxScale / pixelDensity, 1.0)` with
`maxScale = max(rawMax * 0.5, 1.0)`; consequently `filterScale >= 1.0`
and `filterScale * pixelDensity >= 1.0`. -/
theorem filter_scale_floor (M : JsMath) (dpi : ℚ) (w h : ℕ) (p : Params)
    (hdpi : 1 ≤ dpi) :
    (synthesize M dpi w h p).filterScale = max (maxScaleOf M dpi w h p / dpi) 1 ∧
    maxScaleOf M dpi w h p = max (rawMaxF (engineRaw M dpi w h p) (w * h) * 0.5) 1 ∧
    1 ≤ (synthesize M dpi w h p).filterScale ∧
    1 ≤ (synthesize M dpi w h p).filterScale * dpi := by
  refine ⟨rfl, rfl, le_max_right _ _, ?_⟩
  have h1 : 1 ≤ (synthesize M dpi w h p).filterScale := le_max_right _ _
  nlinarith

/-- Witness for C3 at pixel density `1`, `w = h = 1`, default
parameters. -/
theorem filter_scale_floor_witness :
    (1 : ℚ) ≤ 1 ∧ 1 ≤ (synthesize mathStub 1 1 1 pDefault).filterScale ∧
    1 ≤ (synthesize mathStub 1 1 1 pDefault).filterScale * 1 :=
  ⟨le_refl 1, (filter_scale_floor mathStub 1 1 1 pDefault (le_refl 1)).2.2.1,
    (filter_scale_floor mathStub 1 1 1 pDefault (le_refl 1)).2.2.2⟩

/-- C6: the synthesis pass is deterministic: two invocations with
identical width, height, pixel density, border radius, edge thickness,
swirl intensity, scale, radius, offset and region selector produce
identical output buffers and filter scales. -/
theorem synthesis_deterministic (M : JsMath)
    (width1 height1 dpi1 br1 et1 si1 ss1 sr1 so1 : ℚ) (se1 : SwirlEdges)
    (width2 height2 dpi2 br2 et2 si2 ss2 sr2 so2 : ℚ) (se2 : SwirlEdges)
    (h1 : width1 = width2) (h2 : height1 = height2) (h3 : dpi1 = dpi2)
    (h4 : br1 = br2) (h5 : et1 = et2) (h6 : si1 = si2) (h7 : ss1 = ss2)
    (h8 : sr1 = sr2) (h9 : so1 = so2) (h10 : se1 = se2) :
    updateShader M width1 height1 dpi1 ⟨br1, et1, si1, ss1, sr1, so1, se1⟩ =
      updateShader M width2 height2 dpi2 ⟨br2, et2, si2, ss2, sr2, so2, se2⟩ := by
  subst_vars
  rfl

/-- Witness for C6: two identical invocations at width `3`, height `3`,
density `1`, default parameter values. -/
theorem synthesis_deterministic_witness :
    (3 : ℚ) = 3 ∧
    updateShader mathStub 3 3 1 ⟨20, 12, 8, 1, 1, 0, SwirlEdges.all⟩ =
      updateShader mathStub 3 3 1 ⟨20, 12, 8, 1, 1, 0, SwirlEdges.all⟩ :=
  ⟨rfl, synthesis_deterministic mathStub 3 3 1 20 12 8 1 1 0 SwirlEdges.all
    3 3 1 20 12 8 1 1 0 SwirlEdges.all rfl rfl rfl rfl rfl rfl rfl rfl rfl rfl⟩

/-- C7: with all other inputs fixed, synthesis with `swirlScale = 0`
produces output identical to `swirlScale = 0.1`, and synthesis with
`swirlRadius = 0` identical to `swirlRadius = 0.1` (the internal
`max(_, 0.1)` clamp floors both before use). -/
theorem clamp_floor_idempotent (M : JsMath) (dpi : ℚ) (w h : ℕ)
    (br et si ss sr so : ℚ) (se : SwirlEdges) :
    synthesize M dpi w h ⟨br, et, si, 0, sr, so, se⟩ =
      synthesize M dpi w h ⟨br, et, si, 0.1, sr, so, se⟩ ∧
    synthesize M dpi w h ⟨br, et, si, ss, 0, so, se⟩ =
      synthesize M dpi w h ⟨br, et, si, ss, 0.1, so, se⟩ := by
  have h1 : max (0 : ℚ) 0.1 = max (0.1 : ℚ) 0.1 := by norm_num
  constructor <;> simp only [synthesize, maxScaleOf, engineRaw, h1]

/-- C8: the computed influence, the encoded output buffer and the filter
scale do not depend on the rounded-rectangle SDF: two runs differing only
in `borderRadius` produce identical results (the SDF value is computed
per pixel but discarded). -/
theorem sdf_independent (M : JsMath) (dpi : ℚ) (w h : ℕ)
    (br1 br2 et si ss sr so : ℚ) (se : SwirlEdges) :
    synthesize M dpi w h ⟨br1, et, si, ss, sr, so, se⟩ =
      synthesize M dpi w h ⟨br2, et, si, ss, sr, so, se⟩ := rfl

/-- C9 counterexample: with caller-supplied `width = height = 0` (which
satisfies `width <= 0`), the engine does not skip synthesis: it produces
an output, because the device dimensions are clamped to `1` before the
`w <= 0 || h <= 0` guard. -/
theorem dims_guard_counterexample :
    (0 : ℚ) ≤ 0 ∧ (updateShader mathStub 0 0 1 pDefault).isSome = true := by
  refine ⟨le_refl 0, ?_⟩
  simp only [updateShader]
  rw [if_neg]
  · rfl
  · rw [not_or]
    constructor <;> · rw [not_le]; positivity

/-- C9 amended: the engine never treats a call as a no-op on account of
its dimensions: `w = max(1, floor(width * dpi))` and likewise `h` are at
least `1`, so the `w <= 0 || h <= 0` guard is unreachable and a buffer is
always synthesized (for `width <= 0` a degenerate clamped one). -/
theorem dims_guard_amended (M : JsMath) (width height dpi : ℚ) (p : Params) :
    updateShader M width height dpi p =
      some (synthesize M dpi (max 1 ⌊width * dpi⌋ : ℤ).toNat (max 1 ⌊height * dpi⌋ : ℤ).toNat p) := by
  simp only [updateShader]
  rw [if_neg]
  rw [not_or]
  constructor <;>
    · rw [not_le]
      exact lt_of_lt_of_le one_pos (le_max_left _ _)

/-- C10: with `swirlEdges` supplied as the empty array, region membership
is false for every position, so influence is `0` everywhere, every raw
displacement is `(0, 0)`, the running maximum is `0`, `maxScale` floors
to `1`, `filterScale = max(1 / dpi, 1)`, and every pixel of the buffer
encodes zero displacement (`R = G = 128`); the engine itself performs no
fallback from the empty set to `'all'`. -/
theorem empty_region_zero (M : JsMath) (dpi : ℚ) (w h : ℕ) (br et si ss sr so : ℚ) :
    (∀ thr pxX pxY : ℚ,
      influenceAt (SwirlEdges.multi []) so thr w h pxX pxY = 0) ∧
    (∀ i : ℕ, engineRaw M dpi w h ⟨br, et, si, ss, sr, so, SwirlEdges.multi []⟩ i = (0, 0)) ∧
    rawMaxF (engineRaw M dpi w h ⟨br, et, si, ss, sr, so, SwirlEdges.multi []⟩) (w * h) = 0 ∧
    maxScaleOf M dpi w h ⟨br, et, si, ss, sr, so, SwirlEdges.multi []⟩ = 1 ∧
    (synthesize M dpi w h ⟨br, et, si, ss, sr, so, SwirlEdges.multi []⟩).filterScale =
      max (1 / dpi) 1 ∧
    ∀ i, i < w * h →
      (synthesize M dpi w h ⟨br, et, si, ss, sr, so, SwirlEdges.multi []⟩).data[4 * i]? =
        some 128 ∧
      (synthesize M dpi w h ⟨br, et, si, ss, sr, so, SwirlEdges.multi []⟩).data[4 * i + 1]? =
        some 128 := by
  have hraw : ∀ i, engineRaw M dpi w h ⟨br, et, si, ss, sr, so, SwirlEdges.multi []⟩ i = (0, 0) :=
    fun i => pixelD_multi_nil M so (threshold w h et dpi) (max ss 0.1) (max sr 0.1)
      (si / 10) (max (minDimension w h / 100 * 0.05) 0.01 * (si / 10))
      ((w : ℚ) / 2 - br * dpi) ((h : ℚ) / 2 - br * dpi) (br * dpi) w h (i % w) (i / w)
  have hmax : rawMaxF (engineRaw M dpi w h ⟨br, et, si, ss, sr, so, SwirlEdges.multi []⟩) (w * h) = 0 :=
    rawMaxF_zero _ _ hraw
  have hms : maxScaleOf M dpi w h ⟨br, et, si, ss, sr, so, SwirlEdges.multi []⟩ = 1 := by
    unfold maxScaleOf
    rw [hmax]
    norm_num [max_def]
  refine ⟨fun thr pxX pxY => influence_multi_nil so thr w h pxX pxY, hraw, hmax, hms, ?_, ?_⟩
  · show max (maxScaleOf M dpi w h ⟨br, et, si, ss, sr, so, SwirlEdges.multi []⟩ / dpi) 1 =
      max (1 / dpi) 1
    rw [hms]
  · intro i hi
    have hdata : (synthesize M dpi w h ⟨br, et, si, ss, sr, so, SwirlEdges.multi []⟩).data =
        encodeData (engineRaw M dpi w h ⟨br, et, si, ss, sr, so, SwirlEdges.multi []⟩)
          (if 0 < maxScaleOf M dpi w h ⟨br, et, si, ss, sr, so, SwirlEdges.multi []⟩ then
            1 / maxScaleOf M dpi w h ⟨br, et, si, ss, sr, so, SwirlEdges.multi []⟩ else 0)
          (w * h) := rfl
    constructor
    · have h0 := encodeData_getElem
        (engineRaw M dpi w h ⟨br, et, si, ss, sr, so, SwirlEdges.multi []⟩)
        (if 0 < maxScaleOf M dpi w h ⟨br, et, si, ss, sr, so, SwirlEdges.multi []⟩ then
          1 / maxScaleOf M dpi w h ⟨br, et, si, ss, sr, so, SwirlEdges.multi []⟩ else 0)
        (w * h) i 0 hi (by norm_num)
      rw [Nat.add_zero] at h0
      rw [hdata, h0, pixelBytes_zero _ _ _ (hraw i)]
      rfl
    · have h1 := encodeData_getElem
        (engineRaw M dpi w h ⟨br, et, si, ss, sr, so, SwirlEdges.multi []⟩)
        (if 0 < maxScaleOf M dpi w h ⟨br, et, si, ss, sr, so, SwirlEdges.multi []⟩ then
          1 / maxScaleOf M dpi w h ⟨br, et, si, ss, sr, so, SwirlEdges.multi []⟩ else 0)
        (w * h) i 1 hi (by norm_num)
      rw [hdata, h1, pixelBytes_zero _ _ _ (hraw i)]
      rfl

/-- Witness for C10 at `w = h = 1`, default numeric parameters, empty
region array. -/
theorem empty_region_zero_witness :
    influenceAt (SwirlEdges.multi []) 0 12 1 1 0.5 0.5 = 0 ∧
    engineRaw mathStub 1 1 1 ⟨20, 12, 8, 1, 1, 0, SwirlEdges.multi []⟩ 0 = (0, 0) ∧
    0 < 1 * 1 ∧
    (synthesize mathStub 1 1 1 ⟨20, 12, 8, 1, 1, 0, SwirlEdges.multi []⟩).data[4 * 0]? =
      some 128 :=
  ⟨(empty_region_zero mathStub 1 1 1 20 12 8 1 1 0).1 12 0.5 0.5,
    (empty_region_zero mathStub 1 1 1 20 12 8 1 1 0).2.1 0,
    Nat.one_pos,
    ((empty_region_zero mathStub 1 1 1 20 12 8 1 1 0).2.2.2.2.2 0 Nat.one_pos).1⟩

end Claims

end Quidlass
